import Mathlib

/-!
Verification of the Medicine Resolution & Stock Ledger Engine.

A shallow embedding of the engine (src/database.py and src/parser.py):
the in-memory ledger is a list of records, pandas cells are optional
strings (a missing cell, i.e. NaN, is `none`), Python numeric
conversions are modelled as fallible functions, and each Python method
becomes a pure Lean function returning its result together with the new
ledger and a flag recording whether the durable snapshot was rewritten.
Timestamps are threaded as opaque strings: each operation receives one
`now` string standing for `datetime.now().isoformat()`.
-/

namespace MedicineBot

/-! String primitives. The Python string methods the engine uses
(`lower`, `strip`, `split`, `join`, startswith) are modelled over the
character list of the string, keeping every definition reducible by
evaluation. -/

/-- Python `str.strip()` on a character list. -/
def stripChars (l : List Char) : List Char :=
  ((l.dropWhile Char.isWhitespace).reverse.dropWhile Char.isWhitespace).reverse

/-- Python `str.strip()`. -/
def pyStrip (s : String) : String :=
  String.mk (stripChars s.data)

/-- Python `str.lower()` (ASCII case folding, all the engine needs). -/
def pyLower (s : String) : String :=
  String.mk (s.data.map Char.toLower)

/-- Python `str.startswith(pre)`. -/
def pyStartsWith (s pre : String) : Bool :=
  pre.data.isPrefixOf s.data

/-- Python `sep.join(parts)`. -/
def pyJoin (sep : String) : List String → String
  | [] => ""
  | [x] => x
  | x :: xs => x ++ sep ++ pyJoin sep xs

/-- Worker for `str.split()` with no separator: accumulate the current
token (reversed) and break on whitespace runs. -/
def pyWordsAux : List Char → List Char → List String
  | [], cur => if cur.isEmpty then [] else [String.mk cur.reverse]
  | c :: t, cur =>
    if c.isWhitespace then
      if cur.isEmpty then pyWordsAux t []
      else String.mk cur.reverse :: pyWordsAux t []
    else pyWordsAux t (c :: cur)

/-- Python `str.split()` with no separator: whitespace runs separate
tokens and produce no empty tokens. -/
def pySplit (s : String) : List String :=
  pyWordsAux s.data []

/-- Python `str.split('\n')` on a character list. -/
def splitOnNewline : List Char → List (List Char)
  | [] => [[]]
  | c :: t =>
    let r := splitOnNewline t
    if c = '\n' then [] :: r
    else
      match r with
      | [] => [[c]]
      | h :: hs => (c :: h) :: hs

/-- Python `str.split('\n')`. -/
def splitLines (s : String) : List String :=
  (splitOnNewline s.data).map String.mk

/-- A pandas cell as seen by the import code: `none` models a missing
value (NaN); `some s` a string value. -/
abbrev Cell := Option String

/-- Python float values: `none` models NaN, `some q` a finite value.
The engine only ever produces finite values from parsed decimal text,
so rationals are an exact model. -/
abbrev PyFloat := Option ℚ

/-- Numeric value of a list of decimal digit characters. -/
def natOfDigits (ds : List Char) : Nat :=
  ds.foldl (fun a c => a * 10 + (c.toNat - ('0').toNat)) 0

/-- Python `int(s)` on a string: optional surrounding whitespace,
optional sign, then a nonempty run of decimal digits. -/
def parsePyInt (s : String) : Option Int :=
  let body : List Char → Option Int := fun ds =>
    if ds ≠ [] ∧ ds.all Char.isDigit then some (natOfDigits ds) else none
  match (pyStrip s).data with
  | '-' :: ds => (body ds).map Neg.neg
  | '+' :: ds => body ds
  | ds => body ds

/-- Unsigned decimal text accepted by Python `float`: characters all
digits or a dot, at most one dot, at least one digit (so "5.", ".5",
"5.5" and "5" are accepted but "." and "1.2.3" are not). -/
def parseDigitsDot (ds : List Char) : Option ℚ :=
  if ds.all (fun c => c.isDigit ∨ c = '.') ∧ ds.count '.' ≤ 1 ∧ ds.any Char.isDigit then
    let intPart := ds.takeWhile (· ≠ '.')
    let fracPart := (ds.dropWhile (· ≠ '.')).drop 1
    some ((natOfDigits intPart : ℚ) + (natOfDigits fracPart : ℚ) / 10 ^ fracPart.length)
  else
    none

/-- Python `float(s)` on a string, restricted to plain decimal notation
(the only shape the engine ever feeds it). -/
def parsePyFloat (s : String) : Option ℚ :=
  match (pyStrip s).data with
  | '-' :: ds => (parseDigitsDot ds).map Neg.neg
  | '+' :: ds => parseDigitsDot ds
  | ds => parseDigitsDot ds

/-- Python `str()` of a cell: `str(float("nan"))` is the string "nan". -/
def cellStr : Cell → String
  | none => "nan"
  | some s => s

/-- Python `int()` of a cell: `int` of NaN raises, and a string cell
must parse as an integer. The error string models `str(e)`. -/
def cellIntE : Cell → Except String Int
  | none => .error "cannot convert float NaN to integer"
  | some s =>
    match parsePyInt s with
    | some k => .ok k
    | none => .error ("invalid literal for int() with base 10: " ++ s)

/-- Python `float()` of a cell: `float` of NaN is NaN (no exception);
a string cell must parse as a decimal number. -/
def cellFloatE : Cell → Except String PyFloat
  | none => .ok none
  | some s =>
    match parsePyFloat s with
    | some q => .ok (some q)
    | none => .error ("could not convert string to float: " ++ s)

/-- `config.DEFAULT_MIN_STOCK`. -/
def DEFAULT_MIN_STOCK : Int := 20

/-- One ledger record, mirroring the dict built by the import code in
`src/database.py` (fields `id`, `name`, `search_name`, `stock`,
`min_stock`, `price`, `created_at`, `updated_at`). -/
structure Medicine where
  id : Int
  name : String
  search_name : String
  stock : Int
  min_stock : Int
  price : PyFloat
  created_at : String
  updated_at : String
deriving DecidableEq, Repr, Inhabited

/-- Placeholder record used with `List.getD` at indices that are known
to be in bounds (modelling a Python reference into the list). -/
def dummyMed : Medicine := default

/-- An import batch: a header row plus data rows, each row aligned with
the header list. -/
structure DataFrame where
  columns : List String
  rows : List (List Cell)
deriving DecidableEq, Repr

/-- `row[c]` for a column label `c`: the cell at the position of `c` in
the header list (NaN when the label is absent, which the engine never
relies on for mapped columns). -/
def rowCell (cols : List String) (row : List Cell) (c : String) : Cell :=
  match cols.findIdx? (· = c) with
  | none => none
  | some i => (row.get? i).getD none

/-- The column-mapping loop of both importers: for a list of aliases in
priority order, the first alias equal to the lowercasing of some header
wins, and the mapped column is the first header lowercasing to it. -/
def findAliasCol (cols : List String) (aliases : List String) : Option String :=
  aliases.findSome? (fun a => cols.find? (fun c => pyLower c = a))

/-- The `actual_cols` mapping both importers build. -/
structure ActualCols where
  name : Option String
  stock : Option String
  min_stock : Option String
  price : Option String
deriving DecidableEq, Repr

/-- `col_map` of `import_from_dataframe` (note: no "medicine" alias). -/
def importActualCols (cols : List String) : ActualCols where
  name := findAliasCol cols ["medicine_name", "name", "product"]
  stock := findAliasCol cols ["stock", "quantity", "qty"]
  min_stock := findAliasCol cols ["min_stock", "minimum_stock"]
  price := findAliasCol cols ["price", "mrp", "rate"]

/-- `col_map` of `restock_from_dataframe` (aliases
medicine_name, name, medicine, product for the name field). -/
def restockActualCols (cols : List String) : ActualCols where
  name := findAliasCol cols ["medicine_name", "name", "medicine", "product"]
  stock := findAliasCol cols ["stock", "quantity", "qty"]
  min_stock := findAliasCol cols ["min_stock", "minimum_stock"]
  price := findAliasCol cols ["price", "mrp", "rate"]

/-- `int(row.get(actual_cols.get(key), default))`: the default is used
when the key was never mapped; otherwise the mapped cell must convert. -/
def rowIntD (cols : List String) (row : List Cell) (mc : Option String) (d : Int) :
    Except String Int :=
  match mc with
  | none => .ok d
  | some c => cellIntE (rowCell cols row c)

/-- `float(row.get(actual_cols.get(key), default))` analogue. -/
def rowFloatD (cols : List String) (row : List Cell) (mc : Option String) (d : PyFloat) :
    Except String PyFloat :=
  match mc with
  | none => .ok d
  | some c => cellFloatE (rowCell cols row c)

/-! ### Resolver (`find_medicine`)

The fuzzy tier models `thefuzz` token_sort_ratio: the default string
processing (non-alphanumeric characters become spaces, lowercase, trim),
token sort, then the indel ratio `200 * lcs / (len a + len b)` rounded
half-to-even, as computed by the rapidfuzz backend thefuzz wraps. -/

/-- thefuzz default string processing: keep alphanumeric characters,
replace the rest with spaces, lowercase, trim. -/
def fullProcess (s : String) : String :=
  pyStrip (pyLower (String.mk (s.data.map (fun c => if c.isAlphanum then c else ' '))))

/-- Token-sort preprocessing: process, split, sort tokens, rejoin. -/
def tokenSortPrep (s : String) : String :=
  pyJoin " " ((pySplit (fullProcess s)).mergeSort (fun a b => a ≤ b))

/-- Length of a longest common subsequence of two character lists. -/
def lcsLen : List Char → List Char → Nat
  | [], _ => 0
  | _ :: _, [] => 0
  | a :: as, b :: bs =>
    if a = b then lcsLen as bs + 1
    else max (lcsLen (a :: as) bs) (lcsLen as (b :: bs))
termination_by a b => a.length + b.length

/-- Python `round`: nearest integer, ties to even. -/
def roundHalfEven (q : ℚ) : ℤ :=
  let f := ⌊q⌋
  let r := q - f
  if r < 1 / 2 then f
  else if 1 / 2 < r then f + 1
  else if f % 2 = 0 then f else f + 1

/-- `fuzz.token_sort_ratio` as used by `find_medicine`. -/
def tokenSortScore (s1 s2 : String) : Nat :=
  let a := tokenSortPrep s1
  let b := tokenSortPrep s2
  let total := a.length + b.length
  if total = 0 then 100
  else (roundHalfEven (200 * (lcsLen a.data b.data : ℚ) / (total : ℚ))).toNat

/-- `process.extractOne(query, names, scorer)`: the first name attaining
the maximal score (Python `max` keeps the first maximum). -/
def extractOneScore (query : String) (names : List String) : Option (String × Nat) :=
  names.foldl
    (fun best n =>
      let s := tokenSortScore query n
      match best with
      | none => some (n, s)
      | some (bn, bs) => if bs < s then some (n, s) else some (bn, bs))
    none

/-- Python `needle in hay` on strings (contiguous substring test). -/
def isSubstrList (n : List Char) : List Char → Bool
  | [] => n.isEmpty
  | c :: t => n.isPrefixOf (c :: t) || isSubstrList n t

/-- Index of the first record satisfying a predicate: each matching
tier of `find_medicine` is a `for` loop returning the first hit. -/
def firstIdxWhere (p : Medicine → Bool) : List Medicine → Option Nat
  | [] => none
  | m :: rest => if p m then some 0 else (firstIdxWhere p rest).map (· + 1)

/-- `find_medicine`, returning the index of the matched record together
with the confidence score, so that callers can model in-place mutation
of the matched record. Tier order as in the source: exact (100),
startswith (90), substring (80), then fuzzy with a 50 threshold. -/
def findMedicineIdx (meds : List Medicine) (query0 : String) : Option (Nat × Nat) :=
  let query := pyStrip (pyLower query0)
  if query = "" then none
  else
    match firstIdxWhere (fun m => m.search_name = query) meds with
    | some i => some (i, 100)
    | none =>
      match firstIdxWhere (fun m => pyStartsWith m.search_name query) meds with
      | some i => some (i, 90)
      | none =>
        match firstIdxWhere (fun m => isSubstrList query.data m.search_name.data) meds with
        | some i => some (i, 80)
        | none =>
          match extractOneScore query (meds.map (·.search_name)) with
          | none => none
          | some (best, score) =>
            if 50 ≤ score then
              (firstIdxWhere (fun m => m.search_name = best) meds).map (fun i => (i, score))
            else none

/-- `find_medicine` as the source exposes it: the matched record (or
none) and the confidence score. -/
def find_medicine (meds : List Medicine) (query : String) : Option Medicine × Nat :=
  match findMedicineIdx meds query with
  | none => (none, 0)
  | some (i, s) => (meds.get? i, s)

/-! ### Stock updates (`update_stock`) -/

/-- Result of `update_stock`: the returned record (or None), the ledger
after the call, and whether `save_database` ran. -/
structure UpdateResult where
  result : Option Medicine
  meds : List Medicine
  saved : Bool
deriving DecidableEq, Repr

/-- `update_stock`: find the first record with the given id; for "sold"
refuse when stock is smaller than the quantity (returning None with no
mutation and no save), otherwise subtract; for "bought" add; any other
operation string only refreshes `updated_at`. On success the timestamp
is refreshed and the snapshot rewritten. -/
def update_stock (meds : List Medicine) (medicine_id quantity : Int)
    (operation : String) (now : String) : UpdateResult :=
  match meds with
  | [] => ⟨none, [], false⟩
  | m :: rest =>
    if m.id = medicine_id then
      if operation = "sold" then
        if m.stock < quantity then ⟨none, m :: rest, false⟩
        else
          let m2 := { m with stock := m.stock - quantity, updated_at := now }
          ⟨some m2, m2 :: rest, true⟩
      else if operation = "bought" then
        let m2 := { m with stock := m.stock + quantity, updated_at := now }
        ⟨some m2, m2 :: rest, true⟩
      else
        let m2 := { m with updated_at := now }
        ⟨some m2, m2 :: rest, true⟩
    else
      let r := update_stock rest medicine_id quantity operation now
      ⟨r.result, m :: r.meds, r.saved⟩

/-! ### Replace-all import (`import_from_dataframe`) -/

/-- Row-indexed error message: `f"Row {index + 1}: {str(e)}"`. -/
def rowError (idx : Nat) (e : String) : String :=
  "Row " ++ toString (idx + 1) ++ ": " ++ e

/-- Accumulator of the replace-all import loop. -/
structure ImportAcc where
  meds : List Medicine
  success : Nat
  errors : List String
deriving DecidableEq, Repr

/-- One iteration of the `import_from_dataframe` row loop: stringify and
trim the name cell (silently skipping an empty result), convert stock,
min_stock and price with defaults 0, DEFAULT_MIN_STOCK and 0.0, record
a row-indexed error on any conversion failure, and otherwise append a
fresh record with id `index + 1`. -/
def importRow (cols : List String) (ac : ActualCols) (now : String)
    (acc : ImportAcc) (idx : Nat) (row : List Cell) : ImportAcc :=
  match ac.name with
  | none => acc
  | some nameCol =>
    let name := pyStrip (cellStr (rowCell cols row nameCol))
    if name = "" then acc
    else
      match rowIntD cols row ac.stock 0 with
      | .error e => { acc with errors := acc.errors ++ [rowError idx e] }
      | .ok stock =>
        match rowIntD cols row ac.min_stock DEFAULT_MIN_STOCK with
        | .error e => { acc with errors := acc.errors ++ [rowError idx e] }
        | .ok min_stock =>
          match rowFloatD cols row ac.price (some 0) with
          | .error e => { acc with errors := acc.errors ++ [rowError idx e] }
          | .ok price =>
            { acc with
              meds := acc.meds ++
                [{ id := (idx : Int) + 1, name := name, search_name := pyLower name,
                   stock := stock, min_stock := min_stock, price := price,
                   created_at := now, updated_at := now }],
              success := acc.success + 1 }

/-- The `iterrows` loop of the replace-all import, with the running
0-based row index (a default pandas RangeIndex). -/
def importRows (cols : List String) (ac : ActualCols) (now : String) :
    ImportAcc → Nat → List (List Cell) → ImportAcc
  | acc, _, [] => acc
  | acc, idx, row :: rest =>
    importRows cols ac now (importRow cols ac now acc idx row) (idx + 1) rest

/-- Result of `import_from_dataframe`: the returned pair, the ledger
after the call, and whether the snapshot was rewritten. -/
structure ImportResult where
  success_count : Nat
  errors : List String
  meds : List Medicine
  saved : Bool
deriving DecidableEq, Repr

/-- `import_from_dataframe`: resolve columns; if no name column was
mapped return the validation error before touching the ledger;
otherwise clear the ledger (`clear_database`), run the row loop, save
and return the count and errors. -/
def import_from_dataframe (meds : List Medicine) (df : DataFrame) (now : String) :
    ImportResult :=
  let ac := importActualCols df.columns
  match ac.name with
  | none => ⟨0, ["Required column medicine_name or name not found."], meds, false⟩
  | some _ =>
    let r := importRows df.columns ac now ⟨[], 0, []⟩ 0 df.rows
    ⟨r.success, r.errors, r.meds, true⟩

/-! ### Merge/restock import (`restock_from_dataframe`) -/

/-- One entry of `updates_detail`. -/
structure RestockDetail where
  name : String
  old_stock : Int
  new_stock : Int
  added : Int
  status : String
deriving DecidableEq, Repr

/-- Accumulator of the restock loop. -/
structure RestockAcc where
  meds : List Medicine
  updated : Nat
  newc : Nat
  errors : List String
  details : List RestockDetail
deriving DecidableEq, Repr

/-- Optional overwrite used in the restock update branch:
`med[key] = conv(row[actual_cols[key]])` runs only when the column was
mapped; its conversion can raise after earlier mutations already
happened. -/
def rowIntUpd (cols : List String) (row : List Cell) (mc : Option String) (old : Int) :
    Except String Int :=
  match mc with
  | none => .ok old
  | some c => cellIntE (rowCell cols row c)

/-- Optional price overwrite of the restock update branch. -/
def rowFloatUpd (cols : List String) (row : List Cell) (mc : Option String)
    (old : PyFloat) : Except String PyFloat :=
  match mc with
  | none => .ok old
  | some c => cellFloatE (rowCell cols row c)

/-- `max([m['id'] for m in medicines], default=0) + 1` minus the final
`+ 1`: the maximum id, or 0 for an empty ledger. -/
def maxIdList : List Medicine → Int
  | [] => 0
  | m :: ms => ms.foldl (fun a x => max a x.id) m.id

/-- The NEW MEDICINE ENTRY branch of the restock row loop: convert the
optional columns (defaults as in the replace-all import), then append a
record with id `max(existing ids, default 0) + 1`; a conversion failure
only records a row error. -/
def restockNewEntry (cols : List String) (ac : ActualCols) (now : String)
    (acc : RestockAcc) (idx : Nat) (row : List Cell)
    (name_query : String) (stock_to_add : Int) : RestockAcc :=
  match rowIntD cols row ac.min_stock DEFAULT_MIN_STOCK with
  | .error e => { acc with errors := acc.errors ++ [rowError idx e] }
  | .ok min_stock =>
    match rowFloatD cols row ac.price (some 0) with
    | .error e => { acc with errors := acc.errors ++ [rowError idx e] }
    | .ok price =>
      let new_id := maxIdList acc.meds + 1
      { acc with
        meds := acc.meds ++
          [{ id := new_id, name := name_query, search_name := pyLower name_query,
             stock := stock_to_add, min_stock := min_stock, price := price,
             created_at := now, updated_at := now }],
        newc := acc.newc + 1,
        details := acc.details ++
          [⟨name_query, 0, stock_to_add, stock_to_add, "new"⟩] }

/-- One iteration of the `restock_from_dataframe` row loop. The update
branch mutates the matched record in stages exactly as the Python code
does: stock is added first, then min_stock and price are overwritten
when their columns are mapped; a conversion failure in a later stage
leaves the earlier mutations in place and records a row error. The
create branch converts everything before appending, so a failure there
mutates nothing. -/
def restockRow (cols : List String) (ac : ActualCols) (now : String)
    (acc : RestockAcc) (idx : Nat) (row : List Cell) : RestockAcc :=
  match ac.name with
  | none => acc
  | some nameCol =>
    let name_query := pyStrip (cellStr (rowCell cols row nameCol))
    if name_query = "" then acc
    else
      match rowIntD cols row ac.stock 0 with
      | .error e => { acc with errors := acc.errors ++ [rowError idx e] }
      | .ok stock_to_add =>
        match findMedicineIdx acc.meds name_query with
        | some (i, score) =>
          if 60 ≤ score then
            let med0 := acc.meds.getD i dummyMed
            let med1 := { med0 with stock := med0.stock + stock_to_add }
            match rowIntUpd cols row ac.min_stock med1.min_stock with
            | .error e =>
              { acc with meds := acc.meds.set i med1,
                         errors := acc.errors ++ [rowError idx e] }
            | .ok ms =>
              let med2 := { med1 with min_stock := ms }
              match rowFloatUpd cols row ac.price med2.price with
              | .error e =>
                { acc with meds := acc.meds.set i med2,
                           errors := acc.errors ++ [rowError idx e] }
              | .ok pr =>
                let med3 := { med2 with price := pr, updated_at := now }
                { acc with
                  meds := acc.meds.set i med3,
                  updated := acc.updated + 1,
                  details := acc.details ++
                    [⟨med3.name, med0.stock, med3.stock, stock_to_add, "updated"⟩] }
          else
            restockNewEntry cols ac now acc idx row name_query stock_to_add
        | none =>
          restockNewEntry cols ac now acc idx row name_query stock_to_add

/-- The `iterrows` loop of the restock import. -/
def restockRows (cols : List String) (ac : ActualCols) (now : String) :
    RestockAcc → Nat → List (List Cell) → RestockAcc
  | acc, _, [] => acc
  | acc, idx, row :: rest =>
    restockRows cols ac now (restockRow cols ac now acc idx row) (idx + 1) rest

/-- Result of `restock_from_dataframe`. -/
structure RestockResult where
  updated_count : Nat
  new_count : Nat
  errors : List String
  details : List RestockDetail
  meds : List Medicine
  saved : Bool
deriving DecidableEq, Repr

/-- `restock_from_dataframe`: resolve columns; without a mapped name
column return the validation error with nothing mutated or saved;
otherwise run the row loop over the existing ledger and save. -/
def restock_from_dataframe (meds : List Medicine) (df : DataFrame) (now : String) :
    RestockResult :=
  let ac := restockActualCols df.columns
  match ac.name with
  | none => ⟨0, 0, ["Required column medicine_name or name not found."], [], meds, false⟩
  | some _ =>
    let r := restockRows df.columns ac now ⟨meds, 0, 0, [], []⟩ 0 df.rows
    ⟨r.updated, r.newc, r.errors, r.details, r.meds, true⟩

/-! ### Persistence (`save_database` / `load_database`)

The JSON layer is modelled at the value level: `save_database` builds
the object the code passes to `json.dump` and `load_database` reads the
object `json.load` returns. The records live inside the snapshot as
plain objects (in Python they stay dicts); decoding into the typed
record is the representation boundary of this embedding. -/

/-- JSON values as produced and consumed by the snapshot code. -/
inductive Json where
  | null
  | str (s : String)
  | int (n : Int)
  | num (q : PyFloat)
  | arr (xs : List Json)
  | obj (fields : List (String × Json))
deriving Repr

/-- `d.get(k)` on a JSON object. -/
def jsonGet (j : Json) (k : String) : Option Json :=
  match j with
  | .obj fs => (fs.find? (fun f => f.1 = k)).map (fun f => f.2)
  | _ => none

/-- The record object written into the snapshot, field for field. -/
def encodeMedicine (m : Medicine) : Json :=
  .obj [("id", .int m.id), ("name", .str m.name),
        ("search_name", .str m.search_name), ("stock", .int m.stock),
        ("min_stock", .int m.min_stock), ("price", .num m.price),
        ("created_at", .str m.created_at), ("updated_at", .str m.updated_at)]

/-- Read one record object back into the typed record. -/
def decodeMedicine (j : Json) : Option Medicine :=
  match jsonGet j "id" with
  | some (.int id) =>
    match jsonGet j "name" with
    | some (.str name) =>
      match jsonGet j "search_name" with
      | some (.str search_name) =>
        match jsonGet j "stock" with
        | some (.int stock) =>
          match jsonGet j "min_stock" with
          | some (.int min_stock) =>
            match jsonGet j "price" with
            | some (.num price) =>
              match jsonGet j "created_at" with
              | some (.str created_at) =>
                match jsonGet j "updated_at" with
                | some (.str updated_at) =>
                  some ⟨id, name, search_name, stock, min_stock, price,
                        created_at, updated_at⟩
                | _ => none
              | _ => none
            | _ => none
          | _ => none
        | _ => none
      | _ => none
    | _ => none
  | _ => none

/-- `save_database`: the snapshot object
`{updated_at: now, medicines: [...]}`. -/
def save_database (meds : List Medicine) (now : String) : Json :=
  .obj [("updated_at", .str now), ("medicines", .arr (meds.map encodeMedicine))]

/-- `load_database`: a missing or corrupt file (`none`) yields an empty
ledger; otherwise `data.get('medicines', [])` is read and its record
objects decoded. -/
def load_database (file : Option Json) : List Medicine :=
  match file with
  | none => []
  | some data =>
    match jsonGet data "medicines" with
    | some (.arr xs) => xs.filterMap decodeMedicine
    | _ => []

/-! ### Sale-line parser (`src/parser.py`)

The pattern is the anchored regex of the source,
`(.+?)`, whitespace, `(\d+)`, whitespace, `([\d.]+)` to the end of the
line, run with the Python backtracking order (lazy first group, greedy
runs); a raised `ValueError` in the primary branch is modelled as an
`Except.error` escaping the parse. -/

/-- All splits of a list into a nonempty run of characters satisfying
`p` followed by the rest, shortest run first (the lazy order). -/
def runSplits (p : Char → Bool) (l : List Char) : List (List Char × List Char) :=
  (List.range (l.takeWhile p).length).map (fun k => (l.take (k + 1), l.drop (k + 1)))

/-- The same splits, longest run first (the greedy order). -/
def runSplitsGreedy (p : Char → Bool) (l : List Char) : List (List Char × List Char) :=
  (runSplits p l).reverse

/-- The sales pattern matcher: group values found in Python backtracking
order (the first group lazy, every run greedy, anchored at both ends). -/
def matchSalesLine (line : String) : Option (String × String × String) :=
  (runSplits (fun c => c ≠ '\n') line.data).findSome? (fun nr =>
    (runSplitsGreedy Char.isWhitespace nr.2).findSome? (fun sr =>
      (runSplitsGreedy Char.isDigit sr.2).findSome? (fun qr =>
        (runSplitsGreedy Char.isWhitespace qr.2).findSome? (fun sr2 =>
          (runSplitsGreedy (fun c => c.isDigit || c = '.') sr2.2).findSome? (fun pr =>
            if pr.2.isEmpty then
              some (String.mk nr.1, String.mk qr.1, String.mk pr.1)
            else none)))))

/-- A parsed sale entry. -/
structure SaleEntry where
  medicine_query : String
  quantity : Int
  price : PyFloat
deriving DecidableEq, Repr

/-- `parse_single_line`. In the primary branch the source calls
`int(match.group(2))` and `float(match.group(3))` outside any
try/except, so a conversion failure there escapes as an exception
(`Except.error`); the fallback branch wraps its conversions in
try/except and yields None (`Except.ok none`) on failure. -/
def parse_single_line (line : String) : Except String (Option SaleEntry) :=
  match matchSalesLine line with
  | some (g1, g2, g3) =>
    match parsePyInt g2 with
    | none => .error ("invalid literal for int() with base 10: " ++ g2)
    | some q =>
      match parsePyFloat g3 with
      | none => .error ("could not convert string to float: " ++ g3)
      | some p => .ok (some ⟨pyStrip g1, q, some p⟩)
  | none =>
    let parts := pySplit line
    if 3 ≤ parts.length then
      match parsePyFloat (parts.getD (parts.length - 1) ""),
            parsePyInt (parts.getD (parts.length - 2) "") with
      | some price, some q =>
        .ok (some ⟨pyStrip (pyJoin " " (parts.take (parts.length - 2))),
                   q, some price⟩)
      | _, _ => .ok none
    else .ok none

/-- `parse_sales_message`: split on newlines, trim, skip blanks, collect
the parsed entries; an exception raised by a line escapes the whole
call. -/
def parse_sales_message (message : String) : Except String (List SaleEntry) :=
  (splitLines (pyStrip message)).foldlM
    (fun acc line =>
      let l := pyStrip line
      if l = "" then .ok acc
      else
        match parse_single_line l with
        | .error e => .error e
        | .ok none => .ok acc
        | .ok (some entry) => .ok (acc ++ [entry]))
    []

/-! ### Ledger-visible states

A world is the in-memory ledger plus the record list held by the
durable snapshot; the JSON text layer is handled by the round-trip
theorem, so the snapshot is carried as the record list it stores. -/

/-- In-memory ledger plus durable snapshot content. -/
structure World where
  meds : List Medicine
  file : List Medicine
deriving DecidableEq, Repr

/-- The operations of the claim: stock adjustments, the two import
modes, and reloading the snapshot. -/
inductive Op where
  | adjust (medicine_id quantity : Int) (operation : String) (now : String)
  | importDf (df : DataFrame) (now : String)
  | restockDf (df : DataFrame) (now : String)
  | reload
deriving Repr

/-- Apply one operation: each mutator installs its resulting ledger and,
when it saved, rewrites the snapshot with it; `reload` rereads the
snapshot into memory. -/
def applyOp (w : World) : Op → World
  | .adjust i q op now =>
    let r := update_stock w.meds i q op now
    ⟨r.meds, if r.saved then r.meds else w.file⟩
  | .importDf df now =>
    let r := import_from_dataframe w.meds df now
    ⟨r.meds, if r.saved then r.meds else w.file⟩
  | .restockDf df now =>
    let r := restock_from_dataframe w.meds df now
    ⟨r.meds, if r.saved then r.meds else w.file⟩
  | .reload => ⟨w.file, w.file⟩

/-- States reachable from the empty ledger by any operation sequence. -/
inductive Reachable : World → Prop where
  | init : Reachable ⟨[], []⟩
  | step (w : World) (op : Op) : Reachable w → Reachable (applyOp w op)

/-- A cell whose integer conversion, when it succeeds, is non-negative. -/
def cellNonneg (c : Cell) : Bool :=
  match cellIntE c with
  | .ok k => decide (0 ≤ k)
  | .error _ => true

/-- A batch all of whose cells have non-negative integer readings. -/
def dfNonneg (df : DataFrame) : Bool :=
  df.rows.all (fun row => row.all cellNonneg)

/-- Operations restricted to non-negative quantities: adjustments with
a non-negative quantity and imports whose integer cells are
non-negative. -/
def opSafe : Op → Prop
  | .adjust _ q _ _ => 0 ≤ q
  | .importDf df _ => dfNonneg df = true
  | .restockDf df _ => dfNonneg df = true
  | .reload => True

/-- Reachability under non-negative inputs. -/
inductive ReachableSafe : World → Prop where
  | init : ReachableSafe ⟨[], []⟩
  | step (w : World) (op : Op) : ReachableSafe w → opSafe op →
      ReachableSafe (applyOp w op)

/-- Modelled from the claim wording for comparison with the code: the
first alias in the given priority list matching some header
case-insensitively wins, the mapped column being the first matching
header. -/
def firstAliasMatch : List String → List String → Option String
  | [], _ => none
  | a :: as, cols =>
    match cols.find? (fun c => pyLower c = a) with
    | some c => some c
    | none => firstAliasMatch as cols

instance {ε α : Type} [DecidableEq ε] [DecidableEq α] : DecidableEq (Except ε α) := fun a b =>
  match a, b with
  | .ok x, .ok y =>
    if h : x = y then isTrue (by rw [h]) else isFalse (fun hc => h (Except.ok.inj hc))
  | .error e, .error f =>
    if h : e = f then isTrue (by rw [h]) else isFalse (fun hc => h (Except.error.inj hc))
  | .ok _, .error _ => isFalse (fun hc => Except.noConfusion hc)
  | .error _, .ok _ => isFalse (fun hc => Except.noConfusion hc)

/-! ### Theorems -/

/-- Decoding inverts encoding on every record. -/
lemma decode_encode (m : Medicine) : decodeMedicine (encodeMedicine m) = some m := rfl

/-- C8: For every ledger state, save followed by load reproduces an
identical record set: every record's id, name, search_name, stock,
min_stock, price, created_at and updated_at fields are preserved
field-for-field through the durable snapshot. -/
theorem save_load_roundtrip (meds : List Medicine) (now : String) :
    load_database (some (save_database meds now)) = meds := by
  show (List.map encodeMedicine meds).filterMap decodeMedicine = meds
  rw [List.filterMap_map]
  have h1 : (decodeMedicine ∘ encodeMedicine) = some := funext decode_encode
  rw [h1, List.filterMap_some]

/-- A header list none of whose entries lowercases into the alias list
resolves to no column. -/
lemma findAliasCol_none (cols : List String) (aliases : List String)
    (h : ∀ c ∈ cols, pyLower c ∉ aliases) :
    findAliasCol cols aliases = none := by
  induction aliases with
  | nil => rfl
  | cons a as ih =>
    have hfind : cols.find? (fun c => pyLower c = a) = none := by
      refine List.find?_eq_none.2 (fun c hc => ?_)
      simp only [decide_eq_true_eq]
      intro hca
      exact h c hc (by simp [hca])
    simp only [findAliasCol, List.findSome?_cons, hfind]
    exact ih (fun c hc hmem => h c hc (List.mem_cons_of_mem _ hmem))

/-- C4: For every input table whose headers contain no alias of the
logical name field (case-insensitively none of medicine_name, name,
product, medicine), the replace-all import fails as a whole: it returns
0 with a single error message, leaves the record set exactly as it was,
creates and mutates nothing, and does not persist. -/
theorem import_missing_name_aborts (meds : List Medicine) (df : DataFrame) (now : String)
    (h : ∀ c ∈ df.columns, pyLower c ∉ ["medicine_name", "name", "product", "medicine"]) :
    import_from_dataframe meds df now =
      ⟨0, ["Required column medicine_name or name not found."], meds, false⟩ := by
  have hn : (importActualCols df.columns).name = none := by
    apply findAliasCol_none
    intro c hc hmem
    apply h c hc
    simp only [List.mem_cons, List.not_mem_nil, or_false] at hmem ⊢
    tauto
  simp [import_from_dataframe, hn]

/-- Witness for C4 at a concrete table with unrelated headers. -/
theorem import_missing_name_aborts_witness :
    import_from_dataframe [] ⟨["foo", "bar"], [[some "x", some "1"]]⟩ "t" =
      ⟨0, ["Required column medicine_name or name not found."], [], false⟩ :=
  import_missing_name_aborts [] ⟨["foo", "bar"], [[some "x", some "1"]]⟩ "t" (by decide)

/-- The column loop of the importers agrees with the first-alias-wins
resolution described by the spec, for any alias list. -/
lemma findAliasCol_eq_firstAliasMatch (cols : List String) (aliases : List String) :
    findAliasCol cols aliases = firstAliasMatch aliases cols := by
  induction aliases with
  | nil => rfl
  | cons a as ih =>
    simp only [findAliasCol, List.findSome?_cons, firstAliasMatch]
    cases h : cols.find? (fun c => pyLower c = a) with
    | none => simpa [h] using ih
    | some c => simp [h]

/-- C9 (amended): headers are matched case-insensitively and the first
alias in the configured list matching some header wins, but the two
modes use different configured lists: the replace-all import maps the
name field from medicine_name, name, product (no medicine alias), while
the merge/restock import maps it from medicine_name, name, medicine,
product (in that priority order). -/
theorem name_alias_mapping (cols : List String) :
    (importActualCols cols).name = firstAliasMatch ["medicine_name", "name", "product"] cols ∧
    (restockActualCols cols).name =
      firstAliasMatch ["medicine_name", "name", "medicine", "product"] cols :=
  ⟨findAliasCol_eq_firstAliasMatch cols _, findAliasCol_eq_firstAliasMatch cols _⟩

/-- C9 counterexample: a header equal to the alias medicine is not
mapped by the replace-all import, whose whole batch is rejected, even
though the merge/restock import maps the same header. -/
theorem name_alias_mapping_cex :
    (importActualCols ["medicine"]).name = none ∧
    import_from_dataframe [] ⟨["medicine"], [[some "para"]]⟩ "t" =
      ⟨0, ["Required column medicine_name or name not found."], [], false⟩ ∧
    (restockActualCols ["medicine"]).name = some "medicine" := by decide

/-- C7: the code raises on the line "crocin 1 1.2.3": the primary
pattern matches with trailing price token "1.2.3", whose float
conversion fails outside any exception handler, so `parse_single_line`
raises an uncaught ValueError and `parse_sales_message` propagates it
instead of skipping the line. -/
theorem parse_two_dot_price_raises :
    matchSalesLine "crocin 1 1.2.3" = some ("crocin", "1", "1.2.3") ∧
    parse_single_line "crocin 1 1.2.3" =
      .error "could not convert string to float: 1.2.3" ∧
    parse_sales_message "crocin 1 1.2.3" =
      .error "could not convert string to float: 1.2.3" := by decide

/-- A record with an id nobody in the ledger carries: the loop falls
through and returns None with nothing mutated and nothing saved. -/
lemma update_stock_not_found (meds : List Medicine) (i q : Int) (op now : String)
    (h : ∀ m ∈ meds, m.id ≠ i) :
    update_stock meds i q op now = ⟨none, meds, false⟩ := by
  induction meds with
  | nil => rfl
  | cons m rest ih =>
    have hm : m.id ≠ i := h m (List.mem_cons_self m rest)
    have hrest := ih (fun x hx => h x (List.mem_cons_of_mem m hx))
    simp [update_stock, hm, hrest]

/-- The loop passes over records whose id does not match. -/
lemma update_stock_skip_pre (pre rest : List Medicine) (i q : Int) (op now : String)
    (hpre : ∀ m ∈ pre, m.id ≠ i) :
    update_stock (pre ++ rest) i q op now =
      ⟨(update_stock rest i q op now).result,
       pre ++ (update_stock rest i q op now).meds,
       (update_stock rest i q op now).saved⟩ := by
  induction pre with
  | nil => simp
  | cons m pre2 ih =>
    have hm : m.id ≠ i := hpre m (List.mem_cons_self m pre2)
    have h2 := ih (fun x hx => hpre x (List.mem_cons_of_mem m hx))
    simp [update_stock, hm, h2]

/-- C2: selling against the record holding a given id (the first such
record; ids are unique in ledgers the importers build): when the
quantity exceeds the current stock the call returns the failure value
with the ledger byte-for-byte unchanged and no persistence; otherwise
the stock is decremented by exactly the quantity, the timestamp
refreshed, and the snapshot rewritten. -/
theorem update_stock_sold_spec (pre post : List Medicine) (r : Medicine)
    (q : Int) (now : String)
    (hpre : ∀ m ∈ pre, m.id ≠ r.id) :
    update_stock (pre ++ r :: post) r.id q "sold" now =
      if r.stock < q then ⟨none, pre ++ r :: post, false⟩
      else ⟨some { r with stock := r.stock - q, updated_at := now },
            pre ++ { r with stock := r.stock - q, updated_at := now } :: post, true⟩ := by
  rw [update_stock_skip_pre pre (r :: post) r.id q "sold" now hpre]
  by_cases hlt : r.stock < q
  · simp [update_stock, hlt]
  · simp [update_stock, hlt]

/-- Witness for C2: a concrete ledger exercised on both branches. -/
theorem update_stock_sold_spec_witness :
    update_stock [⟨1, "a", "a", 5, 1, some 0, "t", "t"⟩] 1 7 "sold" "u" =
      ⟨none, [⟨1, "a", "a", 5, 1, some 0, "t", "t"⟩], false⟩ ∧
    update_stock [⟨1, "a", "a", 5, 1, some 0, "t", "t"⟩] 1 3 "sold" "u" =
      ⟨some ⟨1, "a", "a", 2, 1, some 0, "t", "u"⟩,
       [⟨1, "a", "a", 2, 1, some 0, "t", "u"⟩], true⟩ := by
  constructor
  · have h := update_stock_sold_spec [] [] ⟨1, "a", "a", 5, 1, some 0, "t", "t"⟩ 7 "u"
      (by intro m hm; cases hm)
    simpa using h
  · have h := update_stock_sold_spec [] [] ⟨1, "a", "a", 5, 1, some 0, "t", "t"⟩ 3 "u"
      (by intro m hm; cases hm)
    simpa using h

/-- C10: an unknown id returns None with no mutation and no save, and an
insufficient-stock refusal returns the very same failure triple, so the
caller cannot tell the two apart from the returned value. -/
theorem update_stock_unknown_vs_insufficient
    (meds1 : List Medicine) (pre post : List Medicine) (r : Medicine)
    (i1 q1 q2 : Int) (op1 now1 now2 : String)
    (h1 : ∀ m ∈ meds1, m.id ≠ i1)
    (hpre : ∀ m ∈ pre, m.id ≠ r.id)
    (hlt : r.stock < q2) :
    update_stock meds1 i1 q1 op1 now1 = ⟨none, meds1, false⟩ ∧
    update_stock (pre ++ r :: post) r.id q2 "sold" now2 =
      ⟨none, pre ++ r :: post, false⟩ := by
  refine ⟨update_stock_not_found meds1 i1 q1 op1 now1 h1, ?_⟩
  rw [update_stock_sold_spec pre post r q2 now2 hpre, if_pos hlt]

/-- Witness for C10: unknown id 9 and insufficient stock on id 1
produce the identical failure value on a concrete ledger. -/
theorem update_stock_unknown_vs_insufficient_witness :
    update_stock [⟨1, "a", "a", 5, 1, some 0, "t", "t"⟩] 9 3 "sold" "u" =
      ⟨none, [⟨1, "a", "a", 5, 1, some 0, "t", "t"⟩], false⟩ ∧
    update_stock [⟨1, "a", "a", 5, 1, some 0, "t", "t"⟩] 1 7 "sold" "u" =
      ⟨none, [⟨1, "a", "a", 5, 1, some 0, "t", "t"⟩], false⟩ := by
  have h := update_stock_unknown_vs_insufficient
    [⟨1, "a", "a", 5, 1, some 0, "t", "t"⟩] [] []
    ⟨1, "a", "a", 5, 1, some 0, "t", "t"⟩ 9 3 7 "sold" "u" "u"
    (by decide) (by intro m hm; cases hm) (by decide)
  simpa using h

/-- The exact-match tier returns the index of the first record whose
search_name equals the query, and under distinct search_names that
record is the member itself. -/
lemma firstIdxWhere_exact (meds : List Medicine) (q : String) (r : Medicine)
    (hmem : r ∈ meds) (hq : r.search_name = q)
    (hnodup : (meds.map Medicine.search_name).Nodup) :
    ∃ i, firstIdxWhere (fun m => m.search_name = q) meds = some i ∧
      meds.get? i = some r := by
  induction meds with
  | nil => cases hmem
  | cons m rest ih =>
    by_cases hm : m.search_name = q
    · refine ⟨0, by simp [firstIdxWhere, hm], ?_⟩
      rcases List.mem_cons.1 hmem with h | h
      · simp [h]
      · exfalso
        have hnd := (List.nodup_cons.1 hnodup).1
        exact hnd (by
          rw [hm, ← hq]
          exact List.mem_map_of_mem Medicine.search_name h)
    · have hrm : r ≠ m := fun he => hm (he ▸ hq)
      have hrest : r ∈ rest := by
        rcases List.mem_cons.1 hmem with h | h
        · exact absurd h hrm
        · exact h
      obtain ⟨i, hfi, hgi⟩ := ih hrest (List.nodup_cons.1 hnodup).2
      exact ⟨i + 1, by simp [firstIdxWhere, hm, hfi], by simpa using hgi⟩

/-- C3 (amended): resolving the normalized name of a ledger record
yields that record with confidence 100, provided no other record shares
its search_name (otherwise the first such record is returned); the
search_name is assumed nonempty and already lowercased and trimmed, as
every importer-built record satisfies. -/
theorem find_medicine_exact (meds : List Medicine) (r : Medicine)
    (hmem : r ∈ meds)
    (hnorm : pyStrip (pyLower r.search_name) = r.search_name)
    (hne : r.search_name ≠ "")
    (hnodup : (meds.map Medicine.search_name).Nodup) :
    find_medicine meds r.search_name = (some r, 100) := by
  obtain ⟨i, hfi, hgi⟩ := firstIdxWhere_exact meds r.search_name r hmem rfl hnodup
  simp only [find_medicine, findMedicineIdx, hnorm, if_neg hne, hfi, hgi]

/-- Witness for C3 on a two-record ledger with distinct names. -/
theorem find_medicine_exact_witness :
    find_medicine [⟨1, "para", "para", 3, 1, some 0, "t", "t"⟩,
                   ⟨2, "crocin", "crocin", 4, 1, some 0, "t", "t"⟩] "crocin" =
      (some ⟨2, "crocin", "crocin", 4, 1, some 0, "t", "t"⟩, 100) :=
  find_medicine_exact
    [⟨1, "para", "para", 3, 1, some 0, "t", "t"⟩,
     ⟨2, "crocin", "crocin", 4, 1, some 0, "t", "t"⟩]
    ⟨2, "crocin", "crocin", 4, 1, some 0, "t", "t"⟩
    (by decide) (by decide) (by decide) (by decide)

/-- C3 counterexample: with two records sharing the search_name "a",
resolving the normalized name of the second record returns the first
record, not the record itself, so the claim as stated fails. -/
theorem find_medicine_exact_cex :
    (⟨2, "a", "a", 2, 2, some 0, "t", "t"⟩ : Medicine) ∈
      ([⟨1, "a", "a", 1, 1, some 0, "t", "t"⟩, ⟨2, "a", "a", 2, 2, some 0, "t", "t"⟩] :
        List Medicine) ∧
    find_medicine
      [⟨1, "a", "a", 1, 1, some 0, "t", "t"⟩, ⟨2, "a", "a", 2, 2, some 0, "t", "t"⟩] "a" =
      (some ⟨1, "a", "a", 1, 1, some 0, "t", "t"⟩, 100) ∧
    ((some ⟨1, "a", "a", 1, 1, some 0, "t", "t"⟩ : Option Medicine), (100 : Nat)) ≠
      (some ⟨2, "a", "a", 2, 2, some 0, "t", "t"⟩, 100) := by decide

/-- C5 (amended): in the replace-all import a row whose name value is
the empty string after trimming is skipped without incrementing the
success count and without an error message, and a row whose price value
fails to convert produces an error tagged with that row's 1-based index
and is skipped; in both cases the loop continues over the remaining
rows. (A genuinely missing name cell, i.e. NaN, is not skipped: it
stringifies to "nan" — see the counterexample.) -/
theorem import_row_semantics (cols : List String) (ac : ActualCols) (now : String)
    (acc : ImportAcc) (idx : Nat) (row1 row2 : List Cell) (rest : List (List Cell))
    (nameCol : String) (st ms : Int) (e : String)
    (hname : ac.name = some nameCol)
    (h1 : pyStrip (cellStr (rowCell cols row1 nameCol)) = "")
    (h2name : pyStrip (cellStr (rowCell cols row2 nameCol)) ≠ "")
    (h2stock : rowIntD cols row2 ac.stock 0 = .ok st)
    (h2min : rowIntD cols row2 ac.min_stock DEFAULT_MIN_STOCK = .ok ms)
    (h2price : rowFloatD cols row2 ac.price (some 0) = .error e) :
    importRows cols ac now acc idx (row1 :: rest) =
      importRows cols ac now acc (idx + 1) rest ∧
    importRows cols ac now acc idx (row2 :: rest) =
      importRows cols ac now { acc with errors := acc.errors ++ [rowError idx e] }
        (idx + 1) rest := by
  constructor
  · simp [importRows, importRow, hname, h1]
  · simp only [importRows, importRow, hname, if_neg h2name, h2stock, h2min, h2price]

/-- Witness for C5: a blank-name row and a bad-price row on a concrete
two-column batch, each followed by a further row that is still
processed. -/
theorem import_row_semantics_witness :
    importRows ["name", "price"] (importActualCols ["name", "price"]) "t"
      ⟨[], 0, []⟩ 0 [[some " ", some "1"], [some "y", some "2"]] =
      importRows ["name", "price"] (importActualCols ["name", "price"]) "t"
      ⟨[], 0, []⟩ 1 [[some "y", some "2"]] ∧
    importRows ["name", "price"] (importActualCols ["name", "price"]) "t"
      ⟨[], 0, []⟩ 0 [[some "x", some "bad"], [some "y", some "2"]] =
      importRows ["name", "price"] (importActualCols ["name", "price"]) "t"
      ⟨[], 0, ["Row 1: could not convert string to float: bad"]⟩ 1 [[some "y", some "2"]] := by
  have h := import_row_semantics ["name", "price"] (importActualCols ["name", "price"]) "t"
    ⟨[], 0, []⟩ 0 [some " ", some "1"] [some "x", some "bad"] [[some "y", some "2"]]
    "name" 0 20 "could not convert string to float: bad"
    (by decide) (by decide) (by decide) (by decide) (by decide) (by decide)
  simpa using h

/-- C5 counterexample: a row whose name cell is missing (NaN) is not
skipped — `str` of NaN is "nan", so the import creates a record named
"nan" and counts it as a success. -/
theorem import_nan_name_cex :
    import_from_dataframe [] ⟨["name"], [[none]]⟩ "t" =
      ⟨1, [], [⟨1, "nan", "nan", 0, 20, some 0, "t", "t"⟩], true⟩ := by decide

/-- C6 (amended): a single-row merge/restock batch whose name resolves
with confidence at least 60 and whose stock value reads q adds exactly
q to the matched record's stock, keeps its id (and created_at), and
refreshes updated_at — provided the row's min_stock and price values
(when those columns are mapped) convert successfully; a failing
optional conversion leaves the stock mutation in place without the
timestamp refresh (see the counterexample). -/
theorem restock_updates_matched_row (meds : List Medicine) (cols : List String)
    (row : List Cell) (now nameCol : String) (i score : Nat) (qty ms : Int) (pr : PyFloat)
    (hname : (restockActualCols cols).name = some nameCol)
    (hq : pyStrip (cellStr (rowCell cols row nameCol)) ≠ "")
    (hstock : rowIntD cols row (restockActualCols cols).stock 0 = .ok qty)
    (hfind : findMedicineIdx meds (pyStrip (cellStr (rowCell cols row nameCol))) =
      some (i, score))
    (hscore : 60 ≤ score)
    (hms : rowIntUpd cols row (restockActualCols cols).min_stock
      (meds.getD i dummyMed).min_stock = .ok ms)
    (hpr : rowFloatUpd cols row (restockActualCols cols).price
      (meds.getD i dummyMed).price = .ok pr) :
    restock_from_dataframe meds ⟨cols, [row]⟩ now =
      ⟨1, 0, [],
       [⟨(meds.getD i dummyMed).name, (meds.getD i dummyMed).stock,
         (meds.getD i dummyMed).stock + qty, qty, "updated"⟩],
       meds.set i ⟨(meds.getD i dummyMed).id, (meds.getD i dummyMed).name,
         (meds.getD i dummyMed).search_name, (meds.getD i dummyMed).stock + qty,
         ms, pr, (meds.getD i dummyMed).created_at, now⟩,
       true⟩ := by
  simp only [restock_from_dataframe, hname, restockRows, restockRow, if_neg hq,
    hstock, hfind, if_pos hscore, hms, hpr]
  simp

/-- Witness for C6: restocking a concrete one-record ledger by 7. -/
theorem restock_updates_matched_row_witness :
    restock_from_dataframe [⟨1, "Aspirin", "aspirin", 10, 20, some 0, "2020", "2020"⟩]
      ⟨["name", "stock"], [[some "aspirin", some "7"]]⟩ "2021" =
      ⟨1, 0, [], [⟨"Aspirin", 10, 17, 7, "updated"⟩],
       [⟨1, "Aspirin", "aspirin", 17, 20, some 0, "2020", "2021"⟩], true⟩ := by
  have h := restock_updates_matched_row
    [⟨1, "Aspirin", "aspirin", 10, 20, some 0, "2020", "2020"⟩]
    ["name", "stock"] [some "aspirin", some "7"] "2021" "name" 0 100 7 20 (some 0)
    (by decide) (by decide) (by decide) (by decide) (by decide) (by decide) (by decide)
  simpa using h

/-- C6 counterexample: a restock row resolving with confidence 100 and
stock value 7, but with an unconvertible min_stock cell, adds the 7 to
the record's stock yet leaves updated_at at its old value "2020"
instead of refreshing it to "2021", contradicting the claim that every
confidently matched row refreshes updated_at. -/
theorem restock_partial_mutation_cex :
    findMedicineIdx [⟨1, "Aspirin", "aspirin", 10, 20, some 0, "2020", "2020"⟩]
      "aspirin" = some (0, 100) ∧
    restock_from_dataframe [⟨1, "Aspirin", "aspirin", 10, 20, some 0, "2020", "2020"⟩]
      ⟨["name", "stock", "min_stock"], [[some "aspirin", some "7", some "bad"]]⟩ "2021" =
      ⟨0, 0, ["Row 1: invalid literal for int() with base 10: bad"], [],
       [⟨1, "Aspirin", "aspirin", 17, 20, some 0, "2020", "2020"⟩], true⟩ := by decide

/-- A cell passing the non-negativity screen converts, when it
converts at all, to a non-negative integer. -/
lemma cellNonneg_ok {cell : Cell} {k : Int} (hc : cellNonneg cell = true)
    (h : cellIntE cell = .ok k) : 0 ≤ k := by
  unfold cellNonneg at hc
  rw [h] at hc
  exact of_decide_eq_true hc

/-- A row lookup yields NaN or a cell of the row. -/
lemma rowCell_cases (cols : List String) (row : List Cell) (c : String) :
    rowCell cols row c = none ∨ rowCell cols row c ∈ row := by
  unfold rowCell
  cases cols.findIdx? (· = c) with
  | none => exact Or.inl rfl
  | some i =>
    cases h : row.get? i with
    | none =>
      rw [List.get?_eq_getElem?] at h
      simp [h]
    | some cell =>
      refine Or.inr ?_
      have hmem : cell ∈ row := List.get?_mem h
      rw [List.get?_eq_getElem?] at h
      simpa [h] using hmem

/-- A defaulted integer read from a screened row is non-negative
whenever the default is. -/
lemma rowIntD_nonneg {cols : List String} {row : List Cell} {mc : Option String}
    {d k : Int} (hrow : row.all cellNonneg = true) (hd : 0 ≤ d)
    (h : rowIntD cols row mc d = .ok k) : 0 ≤ k := by
  cases mc with
  | none =>
    simp only [rowIntD] at h
    cases h
    exact hd
  | some c =>
    simp only [rowIntD] at h
    rcases rowCell_cases cols row c with hc | hc
    · rw [hc] at h
      cases h
    · exact cellNonneg_ok (List.all_eq_true.1 hrow _ hc) h

/-- Indexing into a ledger of non-negative stocks (with the default
record out of range) yields a non-negative stock. -/
lemma getD_stock_nonneg (meds : List Medicine) (i : Nat)
    (h : ∀ m ∈ meds, 0 ≤ m.stock) : 0 ≤ (meds.getD i dummyMed).stock := by
  rw [List.getD_eq_getElem?_getD]
  cases hg : meds[i]? with
  | none =>
    simp only [hg, Option.getD_none]
    decide
  | some m =>
    have hmem : m ∈ meds := List.get?_mem (by rw [List.get?_eq_getElem?, hg])
    simpa [hg] using h m hmem

/-- `update_stock` with a non-negative quantity preserves
non-negative stocks: the sold branch is guarded, the bought branch
adds a non-negative amount. -/
lemma update_stock_nonneg (meds : List Medicine) (i q : Int) (op now : String)
    (hq : 0 ≤ q) (h : ∀ m ∈ meds, 0 ≤ m.stock) :
    ∀ m ∈ (update_stock meds i q op now).meds, 0 ≤ m.stock := by
  induction meds with
  | nil => intro m hm; cases hm
  | cons m0 rest ih =>
    have h0 : 0 ≤ m0.stock := h m0 (List.mem_cons_self m0 rest)
    have hrest : ∀ m ∈ rest, 0 ≤ m.stock := fun m hm => h m (List.mem_cons_of_mem m0 hm)
    by_cases hid : m0.id = i
    · by_cases hsold : op = "sold"
      · by_cases hlt : m0.stock < q
        · simpa [update_stock, hid, hsold, hlt] using h
        · intro m hm
          simp only [update_stock, hid, if_pos rfl, hsold, hlt] at hm
          simp only [if_true, if_false] at hm
          rcases List.mem_cons.1 hm with he | he
          · subst he
            simpa using Int.sub_nonneg.2 (le_of_not_lt hlt)
          · exact hrest m he
      · by_cases hbought : op = "bought"
        · intro m hm
          simp only [update_stock, hid, if_pos rfl, hsold, hbought] at hm
          simp only [if_true, if_false] at hm
          rcases List.mem_cons.1 hm with he | he
          · subst he
            simpa using add_nonneg h0 hq
          · exact hrest m he
        · intro m hm
          simp only [update_stock, hid, if_pos rfl, hsold, hbought] at hm
          simp only [if_true, if_false] at hm
          rcases List.mem_cons.1 hm with he | he
          · subst he
            simpa using h0
          · exact hrest m he
    · intro m hm
      simp only [update_stock, hid, if_false] at hm
      rcases List.mem_cons.1 hm with he | he
      · subst he; exact h0
      · exact ih hrest m he


/-- One replace-all import row preserves non-negative stocks when the
row passes the cell screen. -/
lemma importRow_nonneg (cols : List String) (ac : ActualCols) (now : String)
    (acc : ImportAcc) (idx : Nat) (row : List Cell)
    (hrow : row.all cellNonneg = true) (hacc : ∀ m ∈ acc.meds, 0 ≤ m.stock) :
    ∀ m ∈ (importRow cols ac now acc idx row).meds, 0 ≤ m.stock := by
  unfold importRow
  cases ac.name with
  | none => exact hacc
  | some nameCol =>
    by_cases hname : pyStrip (cellStr (rowCell cols row nameCol)) = ""
    · simpa [hname] using hacc
    · simp only [hname, if_false]
      cases hst : rowIntD cols row ac.stock 0 with
      | error e => simpa using hacc
      | ok stock =>
        cases hms : rowIntD cols row ac.min_stock DEFAULT_MIN_STOCK with
        | error e => simpa using hacc
        | ok min_stock =>
          cases hpr : rowFloatD cols row ac.price (some 0) with
          | error e => simpa using hacc
          | ok price =>
            intro m hm
            simp only [List.mem_append, List.mem_singleton] at hm
            rcases hm with hm | hm
            · exact hacc m hm
            · subst hm
              simpa using rowIntD_nonneg hrow le_rfl hst

/-- The replace-all row loop preserves non-negative stocks. -/
lemma importRows_nonneg (cols : List String) (ac : ActualCols) (now : String)
    (acc : ImportAcc) (idx : Nat) (rows : List (List Cell))
    (hrows : ∀ row ∈ rows, row.all cellNonneg = true)
    (hacc : ∀ m ∈ acc.meds, 0 ≤ m.stock) :
    ∀ m ∈ (importRows cols ac now acc idx rows).meds, 0 ≤ m.stock := by
  induction rows generalizing acc idx with
  | nil => exact hacc
  | cons row rest ih =>
    exact ih _ _ (fun r hr => hrows r (List.mem_cons_of_mem row hr))
      (importRow_nonneg cols ac now acc idx row
        (hrows row (List.mem_cons_self row rest)) hacc)

/-- Overwriting one position with a non-negative-stock record
preserves the invariant. -/
lemma set_stock_nonneg (meds : List Medicine) (i : Nat) (x : Medicine)
    (h : ∀ m ∈ meds, 0 ≤ m.stock) (hx : 0 ≤ x.stock) :
    ∀ m ∈ meds.set i x, 0 ≤ m.stock := by
  intro m hm
  rcases List.mem_or_eq_of_mem_set hm with hmm | hmm
  · exact h m hmm
  · exact hmm ▸ hx

/-- The restock create branch preserves non-negative stocks when the
added quantity is non-negative. -/
lemma restockNewEntry_nonneg (cols : List String) (ac : ActualCols) (now : String)
    (acc : RestockAcc) (idx : Nat) (row : List Cell) (nq : String) (sta : Int)
    (hsta : 0 ≤ sta) (hacc : ∀ m ∈ acc.meds, 0 ≤ m.stock) :
    ∀ m ∈ (restockNewEntry cols ac now acc idx row nq sta).meds, 0 ≤ m.stock := by
  unfold restockNewEntry
  cases rowIntD cols row ac.min_stock DEFAULT_MIN_STOCK with
  | error e => simpa using hacc
  | ok min_stock =>
    cases rowFloatD cols row ac.price (some 0) with
    | error e => simpa using hacc
    | ok price =>
      intro m hm
      simp only [List.mem_append, List.mem_singleton] at hm
      rcases hm with hm | hm
      · exact hacc m hm
      · subst hm
        simpa using hsta

/-- One restock row preserves non-negative stocks when the row passes
the cell screen, including the partial-mutation error paths. -/
lemma restockRow_nonneg (cols : List String) (ac : ActualCols) (now : String)
    (acc : RestockAcc) (idx : Nat) (row : List Cell)
    (hrow : row.all cellNonneg = true) (hacc : ∀ m ∈ acc.meds, 0 ≤ m.stock) :
    ∀ m ∈ (restockRow cols ac now acc idx row).meds, 0 ≤ m.stock := by
  unfold restockRow
  cases ac.name with
  | none => exact hacc
  | some nameCol =>
    by_cases hname : pyStrip (cellStr (rowCell cols row nameCol)) = ""
    · simpa [hname] using hacc
    · simp only [hname, if_false]
      cases hst : rowIntD cols row ac.stock 0 with
      | error e => simpa using hacc
      | ok sta =>
        have hsta : 0 ≤ sta := rowIntD_nonneg hrow le_rfl hst
        have hstock1 : ∀ j : Nat, 0 ≤ (acc.meds.getD j dummyMed).stock + sta :=
          fun j => add_nonneg (getD_stock_nonneg acc.meds j hacc) hsta
        cases hfm : findMedicineIdx acc.meds (pyStrip (cellStr (rowCell cols row nameCol))) with
        | none => exact restockNewEntry_nonneg cols ac now acc idx row _ sta hsta hacc
        | some p =>
          obtain ⟨i, score⟩ := p
          by_cases hsc : 60 ≤ score
          · simp only [hsc, if_true]
            cases rowIntUpd cols row ac.min_stock
              ((acc.meds.getD i dummyMed).min_stock) with
            | error e =>
              exact set_stock_nonneg acc.meds i _ hacc (by simpa using hstock1 i)
            | ok ms =>
              cases rowFloatUpd cols row ac.price ((acc.meds.getD i dummyMed).price) with
              | error e =>
                exact set_stock_nonneg acc.meds i _ hacc (by simpa using hstock1 i)
              | ok pr =>
                exact set_stock_nonneg acc.meds i _ hacc (by simpa using hstock1 i)
          · simp only [hsc, if_false]
            exact restockNewEntry_nonneg cols ac now acc idx row _ sta hsta hacc

/-- The restock row loop preserves non-negative stocks. -/
lemma restockRows_nonneg (cols : List String) (ac : ActualCols) (now : String)
    (acc : RestockAcc) (idx : Nat) (rows : List (List Cell))
    (hrows : ∀ row ∈ rows, row.all cellNonneg = true)
    (hacc : ∀ m ∈ acc.meds, 0 ≤ m.stock) :
    ∀ m ∈ (restockRows cols ac now acc idx rows).meds, 0 ≤ m.stock := by
  induction rows generalizing acc idx with
  | nil => exact hacc
  | cons row rest ih =>
    exact ih _ _ (fun r hr => hrows r (List.mem_cons_of_mem row hr))
      (restockRow_nonneg cols ac now acc idx row
        (hrows row (List.mem_cons_self row rest)) hacc)


/-- Every operation with non-negative inputs preserves non-negative
stocks in both the ledger and the snapshot. -/
lemma applyOp_preserves (w : World) (op : Op) (hop : opSafe op)
    (h : (∀ m ∈ w.meds, 0 ≤ m.stock) ∧ (∀ m ∈ w.file, 0 ≤ m.stock)) :
    (∀ m ∈ (applyOp w op).meds, 0 ≤ m.stock) ∧
    (∀ m ∈ (applyOp w op).file, 0 ≤ m.stock) := by
  cases op with
  | adjust i q o now =>
    have hmeds := update_stock_nonneg w.meds i q o now hop h.1
    refine ⟨hmeds, ?_⟩
    simp only [applyOp]
    split
    · exact hmeds
    · exact h.2
  | importDf df now =>
    have hrows : ∀ row ∈ df.rows, row.all cellNonneg = true :=
      fun row hr => List.all_eq_true.1 hop row hr
    have hmeds : ∀ m ∈ (import_from_dataframe w.meds df now).meds, 0 ≤ m.stock := by
      cases hn : (importActualCols df.columns).name with
      | none =>
        simp only [import_from_dataframe, hn]
        exact h.1
      | some c =>
        simp only [import_from_dataframe, hn]
        exact importRows_nonneg df.columns (importActualCols df.columns) now
          ⟨[], 0, []⟩ 0 df.rows hrows (fun m hm => by cases hm)
    refine ⟨hmeds, ?_⟩
    simp only [applyOp]
    split
    · exact hmeds
    · exact h.2
  | restockDf df now =>
    have hrows : ∀ row ∈ df.rows, row.all cellNonneg = true :=
      fun row hr => List.all_eq_true.1 hop row hr
    have hmeds : ∀ m ∈ (restock_from_dataframe w.meds df now).meds, 0 ≤ m.stock := by
      cases hn : (restockActualCols df.columns).name with
      | none =>
        simp only [restock_from_dataframe, hn]
        exact h.1
      | some c =>
        simp only [restock_from_dataframe, hn]
        exact restockRows_nonneg df.columns (restockActualCols df.columns) now
          ⟨w.meds, 0, 0, [], []⟩ 0 df.rows hrows (fun m hm => h.1 m hm)
    refine ⟨hmeds, ?_⟩
    simp only [applyOp]
    split
    · exact hmeds
    · exact h.2
  | reload => exact ⟨h.2, h.2⟩

/-- C1 (amended): in every state reachable by update_stock
adjustments, replace-all imports, merge/restock imports and loads, all
record stocks are non-negative — provided every adjustment quantity is
non-negative and every integer value read from an import cell is
non-negative. (Without that proviso the invariant fails: see the
counterexample, where an import row carries stock -5.) -/
theorem stock_nonneg_invariant (w : World) (h : ReachableSafe w) :
    w.meds.all (fun m => decide (0 ≤ m.stock)) = true ∧
    w.file.all (fun m => decide (0 ≤ m.stock)) = true := by
  have key : (∀ m ∈ w.meds, 0 ≤ m.stock) ∧ (∀ m ∈ w.file, 0 ≤ m.stock) := by
    induction h with
    | init => exact ⟨fun m hm => (nomatch hm), fun m hm => (nomatch hm)⟩
    | step w2 op hw hop ih => exact applyOp_preserves w2 op hop ih
  exact ⟨List.all_eq_true.2 (fun m hm => decide_eq_true (key.1 m hm)),
         List.all_eq_true.2 (fun m hm => decide_eq_true (key.2 m hm))⟩

/-- Witness for C1: the state after importing one well-formed row from
the empty world satisfies the invariant. -/
theorem stock_nonneg_invariant_witness :
    (applyOp ⟨[], []⟩ (.importDf ⟨["name", "stock"], [[some "para", some "5"]]⟩ "t")).meds.all
      (fun m => decide (0 ≤ m.stock)) = true ∧
    (applyOp ⟨[], []⟩ (.importDf ⟨["name", "stock"], [[some "para", some "5"]]⟩ "t")).file.all
      (fun m => decide (0 ≤ m.stock)) = true :=
  stock_nonneg_invariant _ (ReachableSafe.step _ _ ReachableSafe.init
    (by
      show dfNonneg _ = true
      decide))

/-- C1 counterexample: a single replace-all import of a row whose
stock cell reads -5 yields a reachable Ledger-visible state containing
a record with negative stock. -/
theorem stock_nonneg_cex :
    Reachable (applyOp ⟨[], []⟩
      (.importDf ⟨["name", "stock"], [[some "para", some "-5"]]⟩ "t")) ∧
    (applyOp ⟨[], []⟩ (.importDf ⟨["name", "stock"], [[some "para", some "-5"]]⟩ "t")).meds.all
      (fun m => decide (0 ≤ m.stock)) = false :=
  ⟨Reachable.step _ _ Reachable.init, by decide⟩

end MedicineBot
